import Mathlib

/-!
Verification of the `pipisasa/storage` library: a typed key-value persistence
facade (`src/src/storage.ts`) over a `localStorage`-backed provider
(`src/providers/localStorage.ts`), with a wildcard pattern pub/sub event
router (`Storage._notify` / `Storage.addEventListener`).

JS strings are modelled as their character sequences (`List Char`); the JS
`Map` backing the subscriber registry and the `localStorage` medium are
modelled as insertion-ordered association lists with unique keys; JS `Set`s
of callbacks are insertion-ordered duplicate-free lists.  Callbacks are an
abstract type with decidable equality (JS object identity).
-/

namespace StorageModel

/-- JS strings, modelled as their character sequences. -/
abbrev JsString := List Char

/-- Character data of a Lean string literal, used to write JS string literals. -/
def str (s : String) : JsString := s.data

/-- JS `String.prototype.endsWith`: the receiver ends with the argument. -/
def jsEndsWith (s t : JsString) : Bool := t.isSuffixOf s

/-- Storage events (`StorageEvent` in the types module): a `clear` event carries
no key and no value; a `set` event carries the key and the new value, a
`delete` event the key and the removed value, the value in each case possibly
null (`none`). -/
inductive SEvent (α : Type) where
  | setE (key : JsString) (value : Option α)
  | deleteE (key : JsString) (value : Option α)
  | clearE
deriving DecidableEq

/-- The subscriber registry `Storage._subscribersMap`: a JS `Map` from pattern
string to a JS `Set` of callbacks, in insertion order. -/
abbrev SubMap (Cb : Type) := List (JsString × List Cb)

/-- JS `Map.prototype.get` on the registry: the set of the first (only) entry
whose key equals the pattern. -/
def lookupSet {Cb : Type} : SubMap Cb → JsString → Option (List Cb)
  | [], _ => none
  | e :: rest, p => if e.1 = p then some e.2 else lookupSet rest p

/-- The callbacks registered under a pattern (empty when the pattern is absent). -/
def cbsOf {Cb : Type} (m : SubMap Cb) (p : JsString) : List Cb := (lookupSet m p).getD []

/-- JS `Set.prototype.add`: append unless already present. -/
def setAdd {Cb : Type} [DecidableEq Cb] (s : List Cb) (c : Cb) : List Cb :=
  if c ∈ s then s else s ++ [c]

/-- `Storage.addEventListener` (storage.ts:196-210), effect on the registry:
reuse the pattern's set when it exists (`this._subscribersMap.get(eventType) ??
new Set()` followed by `map.set`), otherwise append a new entry; then
`Set.add` the callback. -/
def addListener {Cb : Type} [DecidableEq Cb] (m : SubMap Cb) (p : JsString) (c : Cb) :
    SubMap Cb :=
  match lookupSet m p with
  | some _ => m.map (fun e => if e.1 = p then (e.1, setAdd e.2 c) else e)
  | none => m ++ [(p, [c])]

/-- The unsubscribe closure returned by `addEventListener` (storage.ts:206-208),
and equally `removeEventListener` (storage.ts:229-236): `subscribersSet.delete(callback)`
on the pattern's set.  The source never replaces a map entry once created, so the
set captured by the closure is always the registry's current set for `p`. -/
def removeListener {Cb : Type} [DecidableEq Cb] (m : SubMap Cb) (p : JsString) (c : Cb) :
    SubMap Cb :=
  m.map (fun e => if e.1 = p then (e.1, e.2.erase c) else e)

/-- One candidate lookup of `_notify`'s set/delete path:
`this._subscribersMap.get(pat)?.forEach(cb => cb(event))`.  Each invocation is
recorded as a pair (pattern looked up, callback invoked), in execution order. -/
def invokeAt {Cb : Type} (m : SubMap Cb) (p : JsString) : List (JsString × Cb) :=
  match lookupSet m p with
  | none => []
  | some cs => cs.map (fun c => (p, c))

/-- The clear branch of `_notify` (storage.ts:150-158): iterate the registry in
insertion order, invoking every callback of each set whose pattern ends with
`:*` or `:clear`. -/
def notifyClear {Cb : Type} : SubMap Cb → List (JsString × Cb)
  | [] => []
  | e :: rest =>
    (if jsEndsWith e.1 (str ":*") || jsEndsWith e.1 (str ":clear")
      then e.2.map (fun c => (e.1, c)) else []) ++ notifyClear rest

/-- `Storage._notify` (storage.ts:149-171), with callbacks treated as inert: the
returned trace lists every invocation (pattern, callback) in execution order.
For `set`/`delete` the template literals `${event.key}:${event.type}`,
`*:${event.type}`, `${event.key}:*` become the three candidate patterns, looked
up in the source's fixed order. -/
def notifyRun {α Cb : Type} (m : SubMap Cb) : SEvent α → List (JsString × Cb)
  | .clearE => notifyClear m
  | .setE k _ =>
    invokeAt m (k ++ str ":set") ++ invokeAt m (str "*:set") ++ invokeAt m (k ++ str ":*")
  | .deleteE k _ =>
    invokeAt m (k ++ str ":delete") ++ invokeAt m (str "*:delete") ++
      invokeAt m (k ++ str ":*")

/-- The serializer collaborator (`JSONSerializer` interface): a stringify and a
parse that may fail (JS `null` becomes `none`). -/
structure SerializerM (α : Type) where
  stringify : α → JsString
  parse : JsString → Option α

/-- `StorageOptions`: the optional key prefix (field `prefix` of the source) and
the serializer.  (The provider is the `LocalStorageProvider` modelled below.) -/
structure OptionsM (α : Type) where
  pfx : Option JsString
  jsonSerializer : SerializerM α

/-- The prefixed key, `options.prefix ? prefix + key : key` (template literal in
the source); the JS truthiness test makes an empty prefix behave like no
prefix. -/
def prefixedKey {α : Type} (o : OptionsM α) (k : JsString) : JsString :=
  match o.pfx with
  | some p => if p = [] then k else p ++ k
  | none => k

/-- The browser `localStorage` medium: a string-to-string map, insertion order,
unique keys. -/
abbrev Medium := List (JsString × JsString)

/-- `localStorage.getItem`. -/
def getItem : Medium → JsString → Option JsString
  | [], _ => none
  | e :: rest, k => if e.1 = k then some e.2 else getItem rest k

/-- `localStorage.setItem`: overwrite the entry in place when present, else
append. -/
def setItem (med : Medium) (k v : JsString) : Medium :=
  match getItem med k with
  | some _ => med.map (fun e => if e.1 = k then (e.1, v) else e)
  | none => med ++ [(k, v)]

/-- `localStorage.removeItem`. -/
def removeItem : Medium → JsString → Medium
  | [], _ => []
  | e :: rest, k => if e.1 = k then removeItem rest k else e :: removeItem rest k

/-- `LocalStorageProvider.get` (providers/localStorage.ts:36-44).  `w` is
whether a `window` global exists (`typeof window === 'undefined'` is false,
i.e. a browser context). -/
def provGet {α : Type} (o : OptionsM α) (w : Bool) (med : Medium) (key : JsString) :
    Option α :=
  let pk := prefixedKey o key
  if w = false then none else
  match getItem med pk with
  | none => none
  | some s => o.jsonSerializer.parse s

/-- `LocalStorageProvider.set` (providers/localStorage.ts:46-54): stringify and
store, returning the input value and the updated medium; `none` and an
unchanged medium when no window exists. -/
def provSet {α : Type} (o : OptionsM α) (w : Bool) (med : Medium) (key : JsString) (v : α) :
    Option α × Medium :=
  let pk := prefixedKey o key
  if w = false then (none, med) else
  (some v, setItem med pk (o.jsonSerializer.stringify v))

/-- `LocalStorageProvider.delete` (providers/localStorage.ts:56-64): read the
old value via `get`, remove the key, return the old value. -/
def provDelete {α : Type} (o : OptionsM α) (w : Bool) (med : Medium) (key : JsString) :
    Option α × Medium :=
  let pk := prefixedKey o key
  if w = false then (none, med) else
  (provGet o w med key, removeItem med pk)

/-- `LocalStorageProvider.clear` (providers/localStorage.ts:66-69). -/
def provClear {α : Type} (_o : OptionsM α) (w : Bool) (med : Medium) : Medium :=
  if w = false then med else []

/-- The facade state: the options, whether a window exists, the medium, and the
subscriber registry. -/
structure FacadeState (α Cb : Type) where
  opts : OptionsM α
  window : Bool
  med : Medium
  subs : SubMap Cb

/-- Result of one facade mutation: the returned value, the new state, the event
passed to `_notify`, and the trace of callback invocations `_notify`
performed. -/
structure MutResult (α Cb : Type) where
  ret : Option α
  st : FacadeState α Cb
  ev : SEvent α
  trace : List (JsString × Cb)

/-- `Storage.get` (storage.ts:102-104): delegate to the provider; no event. -/
def storageGet {α Cb : Type} (st : FacadeState α Cb) (k : JsString) : Option α :=
  provGet st.opts st.window st.med k

/-- `Storage.set` (storage.ts:114-120): delegate to the provider, then dispatch
a `set` event carrying the provider's return value, unconditionally. -/
def storageSet {α Cb : Type} (st : FacadeState α Cb) (k : JsString) (v : α) :
    MutResult α Cb :=
  let r := provSet st.opts st.window st.med k v
  let ev : SEvent α := .setE k r.1
  { ret := r.1, st := { st with med := r.2 }, ev := ev, trace := notifyRun st.subs ev }

/-- `Storage.delete` (storage.ts:129-135): delegate to the provider, then
dispatch a `delete` event carrying the old value, unconditionally. -/
def storageDelete {α Cb : Type} (st : FacadeState α Cb) (k : JsString) :
    MutResult α Cb :=
  let r := provDelete st.opts st.window st.med k
  let ev : SEvent α := .deleteE k r.1
  { ret := r.1, st := { st with med := r.2 }, ev := ev, trace := notifyRun st.subs ev }

/-- `Storage.clear` (storage.ts:141-145): delegate to the provider, then
dispatch a `clear` event, unconditionally.  `clear` returns void, so `ret` is
unused and kept `none`. -/
def storageClear {α Cb : Type} (st : FacadeState α Cb) : MutResult α Cb :=
  { ret := none
    st := { st with med := provClear st.opts st.window st.med }
    ev := (SEvent.clearE : SEvent α)
    trace := notifyRun st.subs (SEvent.clearE : SEvent α) }

/-- Well-formedness of the registry as a JS `Map` of JS `Set`s: pattern keys
are unique and no set holds a callback twice.  Both hold by construction of
`Map` and `Set`. -/
def SubsWF {Cb : Type} (m : SubMap Cb) : Prop :=
  (m.map Prod.fst).Nodup ∧ ∀ e ∈ m, e.2.Nodup

/-- Behaviour of a callback during dispatch, for the reentrancy analysis: a
callback may do nothing to the router, may invoke an unsubscribe closure (or
`removeEventListener`), or may call `addEventListener`, on the same router. -/
inductive CbEffect (Cb : Type) where
  | pass
  | unsub (p : JsString) (c : Cb)
  | sub (p : JsString) (c : Cb)

/-- JS `Set` internals, as needed to model mutation during iteration: the
insertion-ordered entry list, in which a deleted entry leaves a hole that
iteration skips (ECMAScript ordered-hash-table semantics). -/
abbrev EffMap (Cb : Type) := List (JsString × List (Option Cb))

/-- `Map.prototype.get` on the live registry. -/
def lookupEntries {Cb : Type} : EffMap Cb → JsString → Option (List (Option Cb))
  | [], _ => none
  | e :: rest, p => if e.1 = p then some e.2 else lookupEntries rest p

/-- The live members of a set (holes removed). -/
def entriesLive {Cb : Type} (es : List (Option Cb)) : List Cb := es.filterMap id

/-- JS `Set.prototype.add` on entry lists: append unless a live member. -/
def effSetAdd {Cb : Type} [DecidableEq Cb] (es : List (Option Cb)) (c : Cb) :
    List (Option Cb) :=
  if c ∈ entriesLive es then es else es ++ [some c]

/-- JS `Set.prototype.delete` on entry lists: the entry becomes a hole, the
positions of the other entries are preserved. -/
def effSetDelete {Cb : Type} [DecidableEq Cb] : List (Option Cb) → Cb → List (Option Cb)
  | [], _ => []
  | e :: rest, c => if e = some c then none :: rest else e :: effSetDelete rest c

/-- `addEventListener` acting on the live registry. -/
def effAddListener {Cb : Type} [DecidableEq Cb] (m : EffMap Cb) (p : JsString) (c : Cb) :
    EffMap Cb :=
  match lookupEntries m p with
  | some _ => m.map (fun e => if e.1 = p then (e.1, effSetAdd e.2 c) else e)
  | none => m ++ [(p, [some c])]

/-- An unsubscribe closure (or `removeEventListener`) acting on the live
registry. -/
def effRemoveListener {Cb : Type} [DecidableEq Cb] (m : EffMap Cb) (p : JsString) (c : Cb) :
    EffMap Cb :=
  m.map (fun e => if e.1 = p then (e.1, effSetDelete e.2 c) else e)

/-- Apply one callback's effect to the live registry. -/
def applyEffect {Cb : Type} [DecidableEq Cb] (act : Cb → CbEffect Cb) (c : Cb)
    (m : EffMap Cb) : EffMap Cb :=
  match act c with
  | .pass => m
  | .unsub p c2 => effRemoveListener m p c2
  | .sub p c2 => effAddListener m p c2

/-- `Set.prototype.forEach` over the LIVE set registered under `p`: the source
iterates the set held in the map without copying it first, so the walk reads
the current entry list at every position, skipping holes; deletions and
insertions performed by the invoked callbacks are observed by the iteration in
progress.  `fuel` bounds the number of positions examined (callbacks can grow
the entry list; a JS callback that keeps re-adding deleted members loops
forever, which the fuel makes explicit). -/
def forEachLive {Cb : Type} [DecidableEq Cb] (act : Cb → CbEffect Cb) (p : JsString) :
    Nat → Nat → EffMap Cb → List Cb → EffMap Cb × List Cb
  | 0, _, m, tr => (m, tr)
  | fuel + 1, i, m, tr =>
    match lookupEntries m p with
    | none => (m, tr)
    | some es =>
      if h : i < es.length then
        match es.get ⟨i, h⟩ with
        | none => forEachLive act p fuel (i + 1) m tr
        | some c => forEachLive act p fuel (i + 1) (applyEffect act c m) (tr ++ [c])
      else (m, tr)

/-- One candidate lookup of `_notify`'s set/delete path on the live registry:
`this._subscribersMap.get(pat)?.forEach(...)`. -/
def notifyLiveAt {Cb : Type} [DecidableEq Cb] (act : Cb → CbEffect Cb) (p : JsString)
    (fuel : Nat) (m : EffMap Cb) (tr : List Cb) : EffMap Cb × List Cb :=
  match lookupEntries m p with
  | none => (m, tr)
  | some _ => forEachLive act p fuel 0 m tr

/-- The clear branch of `_notify` on the live registry: `Map.prototype.forEach`
visits entries by position (the source never removes registry entries, and
entries appended by callbacks are visited), iterating each matching set live. -/
def clearLive {Cb : Type} [DecidableEq Cb] (act : Cb → CbEffect Cb) (fuel : Nat) :
    Nat → Nat → EffMap Cb → List Cb → EffMap Cb × List Cb
  | 0, _, m, tr => (m, tr)
  | mfuel + 1, i, m, tr =>
    if h : i < m.length then
      let e := m.get ⟨i, h⟩
      if jsEndsWith e.1 (str ":*") || jsEndsWith e.1 (str ":clear") then
        let r := forEachLive act e.1 fuel 0 m tr
        clearLive act fuel mfuel (i + 1) r.1 r.2
      else clearLive act fuel mfuel (i + 1) m tr
    else (m, tr)

/-- `Storage._notify` (storage.ts:149-171) with reentrant callbacks: exactly the
three candidate lookups of `notifyRun` (respectively the registry walk of the
clear branch), but iterating the live sets, threading the registry as the
callbacks mutate it.  Returns the final registry and the invocation trace. -/
def notifyLiveRun {α Cb : Type} [DecidableEq Cb] (act : Cb → CbEffect Cb) (fuel : Nat)
    (m : EffMap Cb) : SEvent α → EffMap Cb × List Cb
  | .clearE => clearLive act fuel fuel 0 m []
  | .setE k _ =>
    let r1 := notifyLiveAt act (k ++ str ":set") fuel m []
    let r2 := notifyLiveAt act (str "*:set") fuel r1.1 r1.2
    notifyLiveAt act (k ++ str ":*") fuel r2.1 r2.2
  | .deleteE k _ =>
    let r1 := notifyLiveAt act (k ++ str ":delete") fuel m []
    let r2 := notifyLiveAt act (str "*:delete") fuel r1.1 r1.2
    notifyLiveAt act (k ++ str ":*") fuel r2.1 r2.2

/-! ## Helper lemmas -/

theorem lookupSet_eq_none_of_not_mem_keys {Cb : Type} {m : SubMap Cb} {p : JsString}
    (h : p ∉ m.map Prod.fst) : lookupSet m p = none := by
  induction m with
  | nil => rfl
  | cons e rest ih =>
    simp only [List.map_cons, List.mem_cons] at h
    push_neg at h
    simp only [lookupSet]
    rw [if_neg (fun hh => h.1 hh.symm)]
    exact ih h.2

theorem lookupSet_mem {Cb : Type} {m : SubMap Cb} {p : JsString} {cs : List Cb}
    (h : lookupSet m p = some cs) : (p, cs) ∈ m := by
  induction m with
  | nil => simp [lookupSet] at h
  | cons e rest ih =>
    simp only [lookupSet] at h
    by_cases he : e.1 = p
    · rw [if_pos he] at h
      obtain ⟨a, b⟩ := e
      simp only at he
      simp only [Option.some.injEq] at h
      subst he
      subst h
      exact List.mem_cons_self _ _
    · rw [if_neg he] at h
      exact List.mem_cons_of_mem _ (ih h)

theorem mem_invokeAt {Cb : Type} (m : SubMap Cb) (p q : JsString) (c : Cb) :
    (q, c) ∈ invokeAt m p ↔ q = p ∧ c ∈ cbsOf m p := by
  unfold invokeAt cbsOf
  cases h : lookupSet m p with
  | none => simp
  | some cs =>
    simp only [List.mem_map, Option.getD_some, Prod.mk.injEq]
    constructor
    · rintro ⟨a, ha, rfl, rfl⟩
      exact ⟨rfl, ha⟩
    · rintro ⟨rfl, hc⟩
      exact ⟨c, hc, rfl, rfl⟩

theorem map_snd_invokeAt {Cb : Type} (m : SubMap Cb) (p : JsString) :
    (invokeAt m p).map Prod.snd = cbsOf m p := by
  unfold invokeAt cbsOf
  cases h : lookupSet m p with
  | none => simp
  | some cs => simp [List.map_map, Function.comp]

theorem suffix_suffix_of_le {a b p : List Char} (ha : a <:+ p) (hb : b <:+ p)
    (h : a.length ≤ b.length) : a <:+ b := by
  obtain ⟨ta, hta⟩ := ha
  obtain ⟨tb, htb⟩ := hb
  have ha' : List.drop ta.length p = a := by rw [← hta]; exact List.drop_left ta a
  have hb' : List.drop tb.length p = b := by rw [← htb]; exact List.drop_left tb b
  have hlen : ta.length + a.length = tb.length + b.length := by
    have h2 := congrArg List.length (hta.trans htb.symm)
    simpa [List.length_append] using h2
  have harith : tb.length + (ta.length - tb.length) = ta.length := by omega
  have hdrop : List.drop (ta.length - tb.length) b = a := by
    rw [← hb', List.drop_drop, harith, ha']
  have hsuf := List.drop_suffix (ta.length - tb.length) b
  rw [hdrop] at hsuf
  exact hsuf

theorem suffix_incomparable {a b p : List Char} (ha : a.isSuffixOf p = true)
    (hb : b.isSuffixOf p = true) (h1 : ¬a <:+ b) (h2 : ¬b <:+ a) : False := by
  rw [List.isSuffixOf_iff_suffix] at ha hb
  rcases Nat.le_total a.length b.length with h | h
  · exact h1 (suffix_suffix_of_le ha hb h)
  · exact h2 (suffix_suffix_of_le hb ha h)

theorem key_set_ne_star_star (k : JsString) : k ++ str ":set" ≠ str "*:*" := by
  intro h
  have hl := congrArg List.length h
  simp [List.length_append, str] at hl

theorem key_delete_ne_star_star (k : JsString) : k ++ str ":delete" ≠ str "*:*" := by
  intro h
  have hl := congrArg List.length h
  simp [List.length_append, str] at hl

theorem key_star_eq_star_star {k : JsString} (h : k ++ str ":*" = str "*:*") :
    k = str "*" := by
  have : k ++ str ":*" = str "*" ++ str ":*" := h
  exact List.append_cancel_right this

theorem key_set_ne_star_set {k : JsString} (hk : k ≠ str "*") :
    k ++ str ":set" ≠ str "*:set" := by
  intro h
  exact hk (List.append_cancel_right (h.trans rfl))

theorem key_delete_ne_star_delete {k : JsString} (hk : k ≠ str "*") :
    k ++ str ":delete" ≠ str "*:delete" := by
  intro h
  exact hk (List.append_cancel_right (h.trans rfl))

theorem key_star_ne_key_set (k : JsString) : k ++ str ":*" ≠ k ++ str ":set" := by
  intro h
  have := List.append_cancel_left h
  simp [str] at this

theorem key_star_ne_key_delete (k : JsString) : k ++ str ":*" ≠ k ++ str ":delete" := by
  intro h
  have := List.append_cancel_left h
  simp [str] at this

theorem key_star_ne_star_set (k : JsString) : k ++ str ":*" ≠ str "*:set" := by
  intro h
  have hs : str ":*" <:+ str "*:set" := h ▸ List.suffix_append k (str ":*")
  rw [List.suffix_iff_eq_drop] at hs
  simp [str] at hs

theorem key_star_ne_star_delete (k : JsString) : k ++ str ":*" ≠ str "*:delete" := by
  intro h
  have hs : str ":*" <:+ str "*:delete" := h ▸ List.suffix_append k (str ":*")
  rw [List.suffix_iff_eq_drop] at hs
  simp [str] at hs

/-! ## C8: provider operations degrade to no-ops without a backing medium -/

/-- C8: when the backing medium is unavailable (no `window` global, i.e. a
non-browser execution context), every provider operation is a no-op on the
medium: `get`, `set` and `delete` return null and leave the medium untouched,
`clear` returns without effect; all four are total, so none raises an error. -/
theorem provider_unavailable_noop {α : Type} (o : OptionsM α) (med : Medium)
    (k : JsString) (v : α) :
    provGet o false med k = none ∧
    provSet o false med k v = (none, med) ∧
    provDelete o false med k = (none, med) ∧
    provClear o false med = med :=
  ⟨rfl, rfl, rfl, rfl⟩

/-! ## C10: the facade dispatches unconditionally -/

/-- C10: the facade dispatches its mutation event unconditionally after
delegating to the provider.  Even with the medium unavailable (`window`
absent), `set` still dispatches a `set` event whose value is the provider's
null return, `delete` still dispatches a `delete` event with value null, and
`clear` still dispatches a `clear` event; in each case `_notify` runs on the
registry exactly as for an available medium. -/
theorem facade_dispatches_when_unavailable {α Cb : Type} (o : OptionsM α)
    (med : Medium) (subs : SubMap Cb) (k : JsString) (v : α) :
    (storageSet ⟨o, false, med, subs⟩ k v).ev = SEvent.setE k none ∧
    (storageSet ⟨o, false, med, subs⟩ k v).trace
      = notifyRun subs (SEvent.setE k (none : Option α)) ∧
    (storageDelete ⟨o, false, med, subs⟩ k).ev = SEvent.deleteE k none ∧
    (storageDelete ⟨o, false, med, subs⟩ k).trace
      = notifyRun subs (SEvent.deleteE k (none : Option α)) ∧
    (storageClear (⟨o, false, med, subs⟩ : FacadeState α Cb)).ev = SEvent.clearE ∧
    (storageClear (⟨o, false, med, subs⟩ : FacadeState α Cb)).trace
      = notifyRun subs (SEvent.clearE : SEvent α) :=
  ⟨rfl, rfl, rfl, rfl, rfl, rfl⟩

/-! ## C9: dispatch for the literal key `"*"` -/

/-- C9: when the key of a `set`/`delete` event is the literal string `*`, the
first two candidate patterns coincide (`"*:set"` twice for `set`), and the
third is `"*:*"`: callbacks under `"*:{action}"` are invoked twice and
callbacks under `"*:*"` once, so `"*:*"` subscribers do receive `set`/`delete`
events for that key. -/
theorem star_key_dispatch {α Cb : Type} [DecidableEq Cb] (m : SubMap Cb)
    (v : Option α) :
    notifyRun m (SEvent.setE (str "*") v)
      = invokeAt m (str "*:set") ++ invokeAt m (str "*:set") ++ invokeAt m (str "*:*") ∧
    notifyRun m (SEvent.deleteE (str "*") v)
      = invokeAt m (str "*:delete") ++ invokeAt m (str "*:delete")
          ++ invokeAt m (str "*:*") ∧
    (∀ c : Cb, ((notifyRun m (SEvent.setE (str "*") v)).map Prod.snd).count c
      = 2 * (cbsOf m (str "*:set")).count c + (cbsOf m (str "*:*")).count c) ∧
    (∀ c : Cb, ((notifyRun m (SEvent.deleteE (str "*") v)).map Prod.snd).count c
      = 2 * (cbsOf m (str "*:delete")).count c + (cbsOf m (str "*:*")).count c) := by
  refine ⟨rfl, rfl, fun c => ?_, fun c => ?_⟩
  · show ((invokeAt m (str "*:set") ++ invokeAt m (str "*:set")
        ++ invokeAt m (str "*:*")).map Prod.snd).count c = _
    simp only [List.map_append, List.count_append, map_snd_invokeAt]
    omega
  · show ((invokeAt m (str "*:delete") ++ invokeAt m (str "*:delete")
        ++ invokeAt m (str "*:*")).map Prod.snd).count c = _
    simp only [List.map_append, List.count_append, map_snd_invokeAt]
    omega

/-! ## C1: set/delete dispatch uses exactly three candidate patterns -/

/-- C1: for a dispatched `set` or `delete` event on key `k`, the router looks
up exactly the three candidate patterns `k:action`, `*:action`, `k:*` and no
others, invoking every callback of each existing set in that fixed order; a
callback subscribed only under the pattern `*:*` is never invoked for a `set`
or `delete` event when `k` is not the literal string `*`. -/
theorem set_delete_dispatch_three_lookups {α Cb : Type} (m : SubMap Cb)
    (k : JsString) (v : Option α) (hk : k ≠ str "*") :
    notifyRun m (SEvent.setE k v)
      = invokeAt m (k ++ str ":set") ++ invokeAt m (str "*:set")
          ++ invokeAt m (k ++ str ":*") ∧
    notifyRun m (SEvent.deleteE k v)
      = invokeAt m (k ++ str ":delete") ++ invokeAt m (str "*:delete")
          ++ invokeAt m (k ++ str ":*") ∧
    ∀ c : Cb, (∀ q, c ∈ cbsOf m q → q = str "*:*") →
      ∀ p, (p, c) ∉ notifyRun m (SEvent.setE k v) ∧
        (p, c) ∉ notifyRun m (SEvent.deleteE k v) := by
  refine ⟨rfl, rfl, fun c honly p => ⟨fun hmem => ?_, fun hmem => ?_⟩⟩
  · replace hmem : (p, c) ∈ invokeAt m (k ++ str ":set") ++ invokeAt m (str "*:set")
      ++ invokeAt m (k ++ str ":*") := hmem
    rcases List.mem_append.1 hmem with hmem | h3
    · rcases List.mem_append.1 hmem with h1 | h2
      · obtain ⟨rfl, hc⟩ := (mem_invokeAt m _ p c).1 h1
        exact key_set_ne_star_star k (honly _ hc)
      · obtain ⟨rfl, hc⟩ := (mem_invokeAt m _ p c).1 h2
        have := honly _ hc
        simp [str] at this
    · obtain ⟨rfl, hc⟩ := (mem_invokeAt m _ p c).1 h3
      exact hk (key_star_eq_star_star (honly _ hc))
  · replace hmem : (p, c) ∈ invokeAt m (k ++ str ":delete") ++ invokeAt m (str "*:delete")
      ++ invokeAt m (k ++ str ":*") := hmem
    rcases List.mem_append.1 hmem with hmem | h3
    · rcases List.mem_append.1 hmem with h1 | h2
      · obtain ⟨rfl, hc⟩ := (mem_invokeAt m _ p c).1 h1
        exact key_delete_ne_star_star k (honly _ hc)
      · obtain ⟨rfl, hc⟩ := (mem_invokeAt m _ p c).1 h2
        have := honly _ hc
        simp [str] at this
    · obtain ⟨rfl, hc⟩ := (mem_invokeAt m _ p c).1 h3
      exact hk (key_star_eq_star_star (honly _ hc))

/-- Witness for C1 at a concrete registry: a callback subscribed only under
`*:*` is not invoked when key `a` is set. -/
theorem set_delete_dispatch_three_lookups_witness :
    str "a" ≠ str "*" ∧
    (str "*:*", 7) ∉ notifyRun [(str "*:*", [7])] (SEvent.setE (str "a") (none : Option Nat)) := by
  refine ⟨by decide, ?_⟩
  have honly : ∀ q, 7 ∈ cbsOf [(str "*:*", [7])] q → q = str "*:*" := by
    intro q hq
    by_cases h : str "*:*" = q
    · exact h.symm
    · simp [cbsOf, lookupSet, h] at hq
  exact ((set_delete_dispatch_three_lookups [(str "*:*", [7])] (str "a")
    (none : Option Nat) (by decide)).2.2 7 honly (str "*:*")).1

/-! ## C5: a callback registered under two matching patterns fires twice -/

/-- C5: for a key `k` distinct from `*`, a callback registered (via
`addEventListener`) under both `k:set` and `*:set` is invoked exactly twice by
one `set(k, v)` call on the facade — once per matching pattern, with no
deduplication. -/
theorem double_subscription_fires_twice {α Cb : Type} [DecidableEq Cb]
    (o : OptionsM α) (w : Bool) (med : Medium) (k : JsString) (c : Cb) (v : α)
    (hk : k ≠ str "*") :
    ((storageSet ⟨o, w, med, addListener (addListener [] (str "*:set") c)
        (k ++ str ":set") c⟩ k v).trace.map Prod.snd).count c = 2 := by
  have hne1 : ¬(str "*:set" = k ++ str ":set") :=
    fun h => key_set_ne_star_set hk h.symm
  have hm : addListener (addListener [] (str "*:set") c) (k ++ str ":set") c
      = [(str "*:set", [c]), (k ++ str ":set", [c])] := by
    simp [addListener, lookupSet, hne1]
  rw [hm]
  show ((notifyRun [(str "*:set", [c]), (k ++ str ":set", [c])]
      (SEvent.setE k (provSet o w med k v).1)).map Prod.snd).count c = 2
  have l1 : lookupSet [(str "*:set", [c]), (k ++ str ":set", [c])] (k ++ str ":set")
      = some [c] := by
    simp [lookupSet, hne1]
  have l2 : lookupSet [(str "*:set", [c]), (k ++ str ":set", [c])] (str "*:set")
      = some [c] := by
    simp [lookupSet]
  have l3 : lookupSet [(str "*:set", [c]), (k ++ str ":set", [c])] (k ++ str ":*")
      = none := by
    have h1 : ¬(str "*:set" = k ++ str ":*") := fun h => key_star_ne_star_set k h.symm
    have h2 : ¬(k ++ str ":set" = k ++ str ":*") := fun h => key_star_ne_key_set k h.symm
    simp [lookupSet, h1, h2]
  show ((invokeAt _ (k ++ str ":set") ++ invokeAt _ (str "*:set")
      ++ invokeAt _ (k ++ str ":*")).map Prod.snd).count c = 2
  simp [invokeAt, l1, l2, l3]

/-- Witness for C5: key `a`, callback `0`, the trivial serializer. -/
theorem double_subscription_fires_twice_witness :
    str "a" ≠ str "*" ∧
    ((storageSet ⟨⟨none, ⟨fun _ => [], fun _ => none⟩⟩, true, [],
        addListener (addListener [] (str "*:set") 0) (str "a" ++ str ":set") 0⟩
      (str "a") (5 : Nat)).trace.map Prod.snd).count 0 = 2 :=
  ⟨by decide, double_subscription_fires_twice ⟨none, ⟨fun _ => [], fun _ => none⟩⟩
    true [] (str "a") 0 5 (by decide)⟩

/-! ## C2: clear dispatch fires exactly the `:*` / `:clear` suffixed patterns -/

theorem mem_notifyClear {Cb : Type} {m : SubMap Cb}
    (hm : (m.map Prod.fst).Nodup) (p : JsString) (c : Cb) :
    (p, c) ∈ notifyClear m ↔
      (jsEndsWith p (str ":*") || jsEndsWith p (str ":clear")) = true ∧ c ∈ cbsOf m p := by
  induction m with
  | nil => simp [notifyClear, cbsOf, lookupSet]
  | cons e rest ih =>
    simp only [List.map_cons, List.nodup_cons] at hm
    obtain ⟨hknew, hrest⟩ := hm
    simp only [notifyClear]
    constructor
    · intro h
      rcases List.mem_append.1 h with h1 | h2
      · by_cases hcond : (jsEndsWith e.1 (str ":*") || jsEndsWith e.1 (str ":clear")) = true
        · rw [if_pos hcond] at h1
          obtain ⟨a, ha, heq⟩ := List.mem_map.1 h1
          obtain ⟨he1, he2⟩ := Prod.mk.injEq .. ▸ heq
          subst he1
          subst he2
          refine ⟨hcond, ?_⟩
          simp [cbsOf, lookupSet, ha]
        · rw [if_neg hcond] at h1
          simp at h1
      · obtain ⟨hcond, hc⟩ := (ih hrest).1 h2
        refine ⟨hcond, ?_⟩
        by_cases he : e.1 = p
        · exfalso
          rw [he] at hknew
          rw [cbsOf, lookupSet_eq_none_of_not_mem_keys hknew] at hc
          simp at hc
        · simp only [cbsOf, lookupSet]
          rw [if_neg he]
          exact hc
    · rintro ⟨hcond, hc⟩
      by_cases he : e.1 = p
      · subst he
        simp only [cbsOf, lookupSet, if_pos rfl, Option.getD_some] at hc
        refine List.mem_append.2 (Or.inl ?_)
        rw [if_pos hcond]
        exact List.mem_map.2 ⟨c, hc, rfl⟩
      · refine List.mem_append.2 (Or.inr ?_)
        refine (ih hrest).2 ⟨hcond, ?_⟩
        simp only [cbsOf, lookupSet] at hc
        rw [if_neg he] at hc
        exact hc

/-- C2: a dispatched `clear` event walks every registered pattern and invokes
exactly the callbacks of patterns ending in `:*` or `:clear` (regardless of
their key token), and no callback of a pattern ending in `:set` or
`:delete`. -/
theorem clear_dispatch_exactly_suffix_matches {α Cb : Type} (m : SubMap Cb)
    (hm : (m.map Prod.fst).Nodup) :
    (∀ p c, (p, c) ∈ notifyRun m (SEvent.clearE : SEvent α) ↔
      (jsEndsWith p (str ":*") || jsEndsWith p (str ":clear")) = true ∧ c ∈ cbsOf m p) ∧
    (∀ p c, (jsEndsWith p (str ":set") || jsEndsWith p (str ":delete")) = true →
      (p, c) ∉ notifyRun m (SEvent.clearE : SEvent α)) := by
  have hmm : ∀ p c, (p, c) ∈ notifyClear m ↔
      (jsEndsWith p (str ":*") || jsEndsWith p (str ":clear")) = true ∧ c ∈ cbsOf m p :=
    fun p c => mem_notifyClear hm p c
  refine ⟨hmm, fun p c hsd hmem => ?_⟩
  obtain ⟨hcond, _⟩ := (hmm p c).1 hmem
  simp only [jsEndsWith, Bool.or_eq_true] at hsd hcond
  rcases hsd with hsd | hsd <;> rcases hcond with hc2 | hc2
  · exact suffix_incomparable hc2 hsd (by decide) (by decide)
  · exact suffix_incomparable hc2 hsd (by decide) (by decide)
  · exact suffix_incomparable hc2 hsd (by decide) (by decide)
  · exact suffix_incomparable hc2 hsd (by decide) (by decide)

/-- Witness for C2 at a concrete registry: `clear` fires a `someKey:*`
subscriber and does not fire a `someKey:set` subscriber. -/
theorem clear_dispatch_exactly_suffix_matches_witness :
    (str "someKey:*", 3) ∈ notifyRun [(str "someKey:*", [3]), (str "someKey:set", [4])]
      (SEvent.clearE : SEvent Nat) ∧
    (str "someKey:set", 4) ∉ notifyRun [(str "someKey:*", [3]), (str "someKey:set", [4])]
      (SEvent.clearE : SEvent Nat) :=
  ⟨((clear_dispatch_exactly_suffix_matches _ (by decide)).1 _ _).mpr
      ⟨by decide, by decide⟩,
    (clear_dispatch_exactly_suffix_matches _ (by decide)).2 _ _ (by decide)⟩

/-! ## C4: the unsubscribe closure removes exactly its callback, idempotently -/

theorem lookupSet_removeListener_self {Cb : Type} [DecidableEq Cb]
    (m : SubMap Cb) (p : JsString) (c : Cb) :
    lookupSet (removeListener m p c) p = (lookupSet m p).map (fun cs => cs.erase c) := by
  induction m with
  | nil => rfl
  | cons e rest ih =>
    show lookupSet ((if e.1 = p then (e.1, e.2.erase c) else e) :: removeListener rest p c) p
        = (lookupSet (e :: rest) p).map (fun cs => cs.erase c)
    by_cases he : e.1 = p
    · rw [if_pos he]
      show (if e.1 = p then some (e.2.erase c) else lookupSet (removeListener rest p c) p)
          = (if e.1 = p then some e.2 else lookupSet rest p).map (fun cs => cs.erase c)
      rw [if_pos he, if_pos he]
      rfl
    · rw [if_neg he]
      show (if e.1 = p then some e.2 else lookupSet (removeListener rest p c) p)
          = (if e.1 = p then some e.2 else lookupSet rest p).map (fun cs => cs.erase c)
      rw [if_neg he, if_neg he]
      exact ih

theorem lookupSet_removeListener_other {Cb : Type} [DecidableEq Cb]
    (m : SubMap Cb) (p q : JsString) (c : Cb) (hq : q ≠ p) :
    lookupSet (removeListener m p c) q = lookupSet m q := by
  induction m with
  | nil => rfl
  | cons e rest ih =>
    show lookupSet ((if e.1 = p then (e.1, e.2.erase c) else e) :: removeListener rest p c) q
        = lookupSet (e :: rest) q
    by_cases he : e.1 = p
    · rw [if_pos he]
      show (if e.1 = q then some (e.2.erase c) else lookupSet (removeListener rest p c) q)
          = if e.1 = q then some e.2 else lookupSet rest q
      have hne : e.1 ≠ q := fun h => hq (h.symm.trans he)
      rw [if_neg hne, if_neg hne]
      exact ih
    · rw [if_neg he]
      show (if e.1 = q then some e.2 else lookupSet (removeListener rest p c) q)
          = if e.1 = q then some e.2 else lookupSet rest q
      by_cases heq : e.1 = q
      · rw [if_pos heq, if_pos heq]
      · rw [if_neg heq, if_neg heq]
        exact ih

theorem removeListener_idem {Cb : Type} [DecidableEq Cb]
    (m : SubMap Cb) (p : JsString) (c : Cb) (hm : ∀ e ∈ m, e.2.Nodup) :
    removeListener (removeListener m p c) p c = removeListener m p c := by
  induction m with
  | nil => rfl
  | cons e rest ih =>
    have hnd : e.2.Nodup := hm e (List.mem_cons_self e rest)
    have hrest : ∀ x ∈ rest, x.2.Nodup := fun x hx => hm x (List.mem_cons_of_mem _ hx)
    show removeListener ((if e.1 = p then (e.1, e.2.erase c) else e)
          :: removeListener rest p c) p c
      = (if e.1 = p then (e.1, e.2.erase c) else e) :: removeListener rest p c
    by_cases hp : e.1 = p
    · rw [if_pos hp]
      show (if e.1 = p then (e.1, (e.2.erase c).erase c) else (e.1, e.2.erase c))
          :: removeListener (removeListener rest p c) p c
        = (e.1, e.2.erase c) :: removeListener rest p c
      rw [if_pos hp, List.erase_of_not_mem hnd.not_mem_erase, ih hrest]
    · rw [if_neg hp]
      show (if e.1 = p then (e.1, e.2.erase c) else e)
          :: removeListener (removeListener rest p c) p c
        = e :: removeListener rest p c
      rw [if_neg hp, ih hrest]

/-- C4: invoking the unsubscribe closure obtained by subscribing callback `c`
under pattern `p` removes exactly `c` from exactly `p`'s subscriber set: `p`'s
set loses `c` and keeps every other callback, every other pattern's set is
unchanged, and invoking the closure a second time is a no-op (the whole
registry is left untouched). -/
theorem unsubscribe_removes_exactly {Cb : Type} [DecidableEq Cb]
    (m : SubMap Cb) (p : JsString) (c : Cb) (hm : ∀ e ∈ m, e.2.Nodup) :
    lookupSet (removeListener m p c) p = (lookupSet m p).map (fun cs => cs.erase c) ∧
    (∀ q, q ≠ p → lookupSet (removeListener m p c) q = lookupSet m q) ∧
    (∀ d, d ≠ c → (d ∈ cbsOf (removeListener m p c) p ↔ d ∈ cbsOf m p)) ∧
    c ∉ cbsOf (removeListener m p c) p ∧
    removeListener (removeListener m p c) p c = removeListener m p c := by
  refine ⟨lookupSet_removeListener_self m p c,
    fun q hq => lookupSet_removeListener_other m p q c hq, ?_, ?_, ?_⟩
  · intro d hd
    rw [cbsOf, cbsOf, lookupSet_removeListener_self m p c]
    cases lookupSet m p with
    | none => simp
    | some cs => simpa using List.mem_erase_of_ne hd
  · rw [cbsOf, lookupSet_removeListener_self m p c]
    cases h : lookupSet m p with
    | none => simp
    | some cs =>
      have hnd : cs.Nodup := hm _ (lookupSet_mem h)
      simpa using hnd.not_mem_erase
  · exact removeListener_idem m p c hm

/-- Witness for C4 at a concrete registry with two patterns and two callbacks:
unsubscribing callback 1 from `a:set` leaves callback 2 and the `b:set` set
intact, removes 1, and a second invocation changes nothing. -/
theorem unsubscribe_removes_exactly_witness :
    lookupSet (removeListener [(str "a:set", [1, 2]), (str "b:set", [1])] (str "a:set") 1)
        (str "a:set")
      = (lookupSet [(str "a:set", [1, 2]), (str "b:set", [1])] (str "a:set")).map
          (fun cs => cs.erase 1) ∧
    lookupSet (removeListener [(str "a:set", [1, 2]), (str "b:set", [1])] (str "a:set") 1)
        (str "b:set")
      = lookupSet [(str "a:set", [1, 2]), (str "b:set", [1])] (str "b:set") ∧
    (2 ∈ cbsOf (removeListener [(str "a:set", [1, 2]), (str "b:set", [1])] (str "a:set") 1)
        (str "a:set")
      ↔ 2 ∈ cbsOf [(str "a:set", [1, 2]), (str "b:set", [1])] (str "a:set")) ∧
    1 ∉ cbsOf (removeListener [(str "a:set", [1, 2]), (str "b:set", [1])] (str "a:set") 1)
        (str "a:set") ∧
    removeListener (removeListener [(str "a:set", [1, 2]), (str "b:set", [1])]
        (str "a:set") 1) (str "a:set") 1
      = removeListener [(str "a:set", [1, 2]), (str "b:set", [1])] (str "a:set") 1 := by
  obtain ⟨h1, h2, h3, h4, h5⟩ := unsubscribe_removes_exactly
    [(str "a:set", [1, 2]), (str "b:set", [1])] (str "a:set") 1 (by decide)
  exact ⟨h1, h2 _ (by decide), h3 2 (by decide), h4, h5⟩

/-! ## C6 and C7: provider round-trip through the facade -/

theorem getItem_map_overwrite (med : Medium) (k s : JsString) :
    getItem (med.map (fun e => if e.1 = k then (e.1, s) else e)) k
      = (getItem med k).map (fun _ => s) := by
  induction med with
  | nil => rfl
  | cons e rest ih =>
    show getItem ((if e.1 = k then (e.1, s) else e)
          :: rest.map (fun e => if e.1 = k then (e.1, s) else e)) k
      = (getItem (e :: rest) k).map (fun _ => s)
    by_cases he : e.1 = k
    · rw [if_pos he]
      show (if e.1 = k then some s
          else getItem (rest.map (fun e => if e.1 = k then (e.1, s) else e)) k)
        = (if e.1 = k then some e.2 else getItem rest k).map (fun _ => s)
      rw [if_pos he, if_pos he]
      rfl
    · rw [if_neg he]
      show (if e.1 = k then some e.2
          else getItem (rest.map (fun e => if e.1 = k then (e.1, s) else e)) k)
        = (if e.1 = k then some e.2 else getItem rest k).map (fun _ => s)
      rw [if_neg he, if_neg he]
      exact ih

theorem getItem_append_of_none {med : Medium} {k : JsString} (l2 : Medium)
    (h : getItem med k = none) : getItem (med ++ l2) k = getItem l2 k := by
  induction med with
  | nil => rfl
  | cons e rest ih =>
    show (if e.1 = k then some e.2 else getItem (rest ++ l2) k) = getItem l2 k
    replace h : (if e.1 = k then some e.2 else getItem rest k) = none := h
    by_cases he : e.1 = k
    · rw [if_pos he] at h
      exact absurd h (by simp)
    · rw [if_neg he] at h
      rw [if_neg he]
      exact ih h

theorem getItem_setItem_self (med : Medium) (k s : JsString) :
    getItem (setItem med k s) k = some s := by
  rw [setItem]
  cases h : getItem med k with
  | none =>
    rw [getItem_append_of_none _ h]
    show (if k = k then some s else none) = some s
    rw [if_pos rfl]
  | some old =>
    rw [getItem_map_overwrite, h]
    rfl

theorem getItem_removeItem_self (med : Medium) (k : JsString) :
    getItem (removeItem med k) k = none := by
  induction med with
  | nil => rfl
  | cons e rest ih =>
    show getItem (if e.1 = k then removeItem rest k else e :: removeItem rest k) k = none
    by_cases he : e.1 = k
    · rw [if_pos he]
      exact ih
    · rw [if_neg he]
      show (if e.1 = k then some e.2 else getItem (removeItem rest k) k) = none
      rw [if_neg he]
      exact ih

/-- C6: with the backing medium available, `set(k, v)` followed by `get(k)` on
the facade returns a value equal to `v`: the provider stores the serializer's
stringification of `v` and `get` reads it back through the serializer's parse,
so the result is `some v` whenever the serializer round-trips at `v`. -/
theorem set_get_roundtrip {α Cb : Type} (o : OptionsM α) (med : Medium)
    (subs : SubMap Cb) (k : JsString) (v : α)
    (hrt : o.jsonSerializer.parse (o.jsonSerializer.stringify v) = some v) :
    storageGet ((storageSet ⟨o, true, med, subs⟩ k v).st) k = some v := by
  show provGet o true
      (setItem med (prefixedKey o k) (o.jsonSerializer.stringify v)) k = some v
  rw [provGet]
  simp only [if_neg (by simp : ¬(true = false))]
  rw [getItem_setItem_self]
  exact hrt

/-- Witness for C6: a one-value serializer round-trips, so set-then-get
returns the value. -/
theorem set_get_roundtrip_witness :
    (some 5 : Option Nat) = some 5 ∧
    storageGet ((storageSet ⟨⟨none, ⟨fun _ => [], fun _ => some 5⟩⟩, true, [],
      ([] : SubMap Nat)⟩ (str "k") (5 : Nat)).st) (str "k") = some 5 :=
  ⟨rfl, set_get_roundtrip ⟨none, ⟨fun _ => [], fun _ => some 5⟩⟩ [] [] (str "k") 5 rfl⟩

/-- C7: with the backing medium available and a value stored under `k` (the
medium holds string `s` at the prefixed key), `delete(k)` on the facade
returns the previously stored value — exactly what `get(k)` returned before,
namely the parse of `s` — and a `get(k)` performed after the delete returns
null. -/
theorem delete_returns_old_then_get_none {α Cb : Type} (o : OptionsM α)
    (med : Medium) (subs : SubMap Cb) (k s : JsString)
    (hst : getItem med (prefixedKey o k) = some s) :
    (storageDelete ⟨o, true, med, subs⟩ k).ret = storageGet ⟨o, true, med, subs⟩ k ∧
    (storageDelete ⟨o, true, med, subs⟩ k).ret = o.jsonSerializer.parse s ∧
    storageGet ((storageDelete ⟨o, true, med, subs⟩ k).st) k = none := by
  refine ⟨rfl, ?_, ?_⟩
  · show provGet o true med k = o.jsonSerializer.parse s
    rw [provGet]
    simp only [if_neg (by simp : ¬(true = false))]
    rw [hst]
  · show provGet o true (removeItem med (prefixedKey o k)) k = none
    rw [provGet]
    simp only [if_neg (by simp : ¬(true = false))]
    rw [getItem_removeItem_self]

/-- Witness for C7 at a concrete medium holding one entry. -/
theorem delete_returns_old_then_get_none_witness :
    getItem [(str "k", str "v")] (prefixedKey ⟨none, ⟨fun x => x, fun x => some x⟩⟩ (str "k"))
      = some (str "v") ∧
    (storageDelete ⟨⟨none, ⟨fun x => x, fun x => some x⟩⟩, true, [(str "k", str "v")],
        ([] : SubMap Nat)⟩ (str "k")).ret
      = storageGet ⟨⟨none, ⟨fun x => x, fun x => some x⟩⟩, true, [(str "k", str "v")],
        ([] : SubMap Nat)⟩ (str "k") ∧
    storageGet ((storageDelete ⟨⟨none, ⟨fun x => x, fun x => some x⟩⟩, true,
        [(str "k", str "v")], ([] : SubMap Nat)⟩ (str "k")).st) (str "k") = none := by
  obtain ⟨h1, _, h3⟩ := delete_returns_old_then_get_none
    ⟨none, ⟨fun x => x, fun x => some x⟩⟩ [(str "k", str "v")] ([] : SubMap Nat)
    (str "k") (str "v") (by decide)
  exact ⟨by decide, h1, h3⟩

/-! ## C3: dispatch iterates the live subscriber set, not a snapshot -/

theorem forEachLive_step_visit {Cb : Type} [DecidableEq Cb] (act : Cb → CbEffect Cb)
    (p : JsString) (fuel i : Nat) (m : EffMap Cb) (tr : List Cb)
    (es : List (Option Cb)) (hes : lookupEntries m p = some es) (h : i < es.length)
    (c : Cb) (hc : es.get ⟨i, h⟩ = some c) :
    forEachLive act p (fuel + 1) i m tr
      = forEachLive act p fuel (i + 1) (applyEffect act c m) (tr ++ [c]) := by
  conv_lhs => rw [forEachLive]
  rw [hes]
  simp only [dif_pos h]
  rw [hc]

theorem forEachLive_step_skip {Cb : Type} [DecidableEq Cb] (act : Cb → CbEffect Cb)
    (p : JsString) (fuel i : Nat) (m : EffMap Cb) (tr : List Cb)
    (es : List (Option Cb)) (hes : lookupEntries m p = some es) (h : i < es.length)
    (hc : es.get ⟨i, h⟩ = none) :
    forEachLive act p (fuel + 1) i m tr = forEachLive act p fuel (i + 1) m tr := by
  conv_lhs => rw [forEachLive]
  rw [hes]
  simp only [dif_pos h]
  rw [hc]

theorem forEachLive_step_stop {Cb : Type} [DecidableEq Cb] (act : Cb → CbEffect Cb)
    (p : JsString) (fuel i : Nat) (m : EffMap Cb) (tr : List Cb)
    (es : List (Option Cb)) (hes : lookupEntries m p = some es) (h : ¬i < es.length) :
    forEachLive act p (fuel + 1) i m tr = (m, tr) := by
  conv_lhs => rw [forEachLive]
  rw [hes]
  simp only [dif_neg h]

/-- C3 (amended): `_notify` iterates the live subscriber set, not a snapshot,
so a callback that unsubscribes a later, not-yet-invoked callback of the same
matched set while the dispatch is in progress prevents that callback from
being invoked by the in-progress dispatch: with callbacks `c1, c2` registered
under `k:set` and `c1` unsubscribing `c2`, dispatching `set` on `k` invokes
only `c1`. -/
theorem unsubscribe_during_dispatch_skips_callback {α Cb : Type} [DecidableEq Cb]
    (k : JsString) (c1 c2 : Cb) (v : Option α) (hk : k ≠ str "*") (hc : c1 ≠ c2) :
    (notifyLiveRun (fun c => if c = c1 then CbEffect.unsub (k ++ str ":set") c2
        else CbEffect.pass) 5
      [(k ++ str ":set", [some c1, some c2])] (SEvent.setE k v)).2 = [c1] := by
  set act : Cb → CbEffect Cb :=
    fun c => if c = c1 then CbEffect.unsub (k ++ str ":set") c2 else CbEffect.pass with hact
  set p : JsString := k ++ str ":set" with hp
  set m0 : EffMap Cb := [(p, [some c1, some c2])] with hm0
  set m1 : EffMap Cb := [(p, [some c1, none])] with hm1
  have hA : lookupEntries m0 p = some [some c1, some c2] := by
    show (if p = p then some [some c1, some c2] else lookupEntries [] p) = _
    rw [if_pos rfl]
  have hA1 : lookupEntries m1 p = some [some c1, none] := by
    show (if p = p then some [some c1, none] else lookupEntries [] p) = _
    rw [if_pos rfl]
  have hact1 : act c1 = CbEffect.unsub p c2 := by
    rw [hact]
    simp
  have hdel : effSetDelete [some c1, some c2] c2 = [some c1, none] := by
    show (if some c1 = some c2 then none :: [some c2] else
      some c1 :: effSetDelete [some c2] c2) = _
    rw [if_neg (by simpa using hc)]
    show some c1 :: (if some c2 = some c2 then none :: ([] : List (Option Cb)) else
      some c2 :: effSetDelete [] c2) = _
    rw [if_pos rfl]
  have hB : applyEffect act c1 m0 = m1 := by
    simp only [applyEffect, hact1]
    show m0.map (fun e => if e.1 = p then (e.1, effSetDelete e.2 c2) else e) = m1
    rw [hm0, hm1]
    simp [hdel]
  have hF : forEachLive act p 5 0 m0 [] = (m1, [c1]) := by
    rw [forEachLive_step_visit act p 4 0 m0 [] _ hA (by simp) c1 rfl, hB]
    show forEachLive act p 4 1 m1 [c1] = (m1, [c1])
    rw [forEachLive_step_skip act p 3 1 m1 [c1] _ hA1 (by simp) rfl]
    show forEachLive act p 3 2 m1 [c1] = (m1, [c1])
    rw [forEachLive_step_stop act p 2 2 m1 [c1] _ hA1 (by simp)]
  have hL2 : lookupEntries m1 (str "*:set") = none := by
    have hne : ¬(p = str "*:set") := by
      rw [hp]
      exact key_set_ne_star_set hk
    show (if p = str "*:set" then some [some c1, none]
        else lookupEntries [] (str "*:set")) = _
    rw [if_neg hne]
    rfl
  have hL3 : lookupEntries m1 (k ++ str ":*") = none := by
    have hne : ¬(p = k ++ str ":*") := by
      rw [hp]
      exact fun h => key_star_ne_key_set k h.symm
    show (if p = k ++ str ":*" then some [some c1, none]
        else lookupEntries [] (k ++ str ":*")) = _
    rw [if_neg hne]
    rfl
  have h1 : notifyLiveAt act p 5 m0 [] = (m1, [c1]) := by
    rw [notifyLiveAt, hA]
    exact hF
  have h2 : notifyLiveAt act (str "*:set") 5 m1 [c1] = (m1, [c1]) := by
    rw [notifyLiveAt, hL2]
  show (notifyLiveAt act (k ++ str ":*") 5
      (notifyLiveAt act (str "*:set") 5
        (notifyLiveAt act p 5 m0 []).1 (notifyLiveAt act p 5 m0 []).2).1
      (notifyLiveAt act (str "*:set") 5
        (notifyLiveAt act p 5 m0 []).1 (notifyLiveAt act p 5 m0 []).2).2).2 = [c1]
  rw [h1]
  show (notifyLiveAt act (k ++ str ":*") 5
      (notifyLiveAt act (str "*:set") 5 m1 [c1]).1
      (notifyLiveAt act (str "*:set") 5 m1 [c1]).2).2 = [c1]
  rw [h2]
  show (notifyLiveAt act (k ++ str ":*") 5 m1 [c1]).2 = [c1]
  rw [notifyLiveAt, hL3]

/-- Witness for the amended C3 theorem at key `a` and callbacks `0`, `1`. -/
theorem unsubscribe_during_dispatch_skips_callback_witness :
    str "a" ≠ str "*" ∧ (0 : Nat) ≠ 1 ∧
    (notifyLiveRun (fun c => if c = 0 then CbEffect.unsub (str "a" ++ str ":set") 1
        else CbEffect.pass) 5
      [(str "a" ++ str ":set", [some 0, some 1])]
      (SEvent.setE (str "a") (none : Option Nat))).2 = [0] :=
  ⟨by decide, by decide,
    unsubscribe_during_dispatch_skips_callback (str "a") 0 1 none (by decide) (by decide)⟩

/-- C3 counterexample: dispatch does NOT iterate a snapshot of the matched
subscriber set.  On the same initial registry (callbacks `0` and `1` under
`a:set`), one `set` dispatch invokes `[0, 1]` when no callback mutates the
router, but invokes only `[0]` when callback `0` unsubscribes callback `1`
mid-dispatch — so a callback unsubscribing during dispatch does change which
callbacks the in-progress dispatch invokes. -/
theorem dispatch_iterates_live_not_snapshot :
    (notifyLiveRun (fun c => if c = 0 then CbEffect.unsub (str "a:set") 1
        else CbEffect.pass) 5
      [(str "a:set", [some 0, some 1])] (SEvent.setE (str "a") (none : Option Nat))).2
      = [0] ∧
    (notifyLiveRun (fun _ : Nat => CbEffect.pass) 5
      [(str "a:set", [some 0, some 1])] (SEvent.setE (str "a") (none : Option Nat))).2
      = [0, 1] := by
  constructor <;> decide

end StorageModel
